import Mathlib

/-!
Verification of the AIWisper audio-to-text pipeline scripts.

Shallow embedding of the Python sources:
  - backend/test_gigaam_official.py : hard-coded character vocabulary,
    greedy CTC decoder `ctc_decode`, ffmpeg PCM loading.
  - backend/test_gigaam_e2e.py : vocabulary file loader `load_vocab`,
    greedy CTC decoder `ctc_decode_e2e` with word-boundary substitution
    and whitespace trimming, mel-spectrogram shape parameters.
  - backend/test_mel_compare.py : same mel parameters.
  - backend/faster_whisper_cli.py : segment text assembly.

Logits values are modelled as rationals (the scripts use float32; all the
claims under study concern control flow over comparisons, not rounding).
Strings are modelled with Lean's `String`, Python text operations
(`strip`, `split(" ")`, `startswith`, `replace`) are re-implemented below
over the character list `String.data` with Python's semantics.
-/

/-! ### Fixed pipeline parameters (both gigaam scripts) -/

def SAMPLE_RATE : Nat := 16000
def N_MELS : Nat := 64
def HOP_LENGTH : Nat := 160
def WIN_LENGTH : Nat := 320
def N_FFT : Nat := 320

/-! ### Python string primitives -/

/-- Python whitespace test used by `str.strip()` with no argument: the
characters for which `str.isspace()` holds (CPython's Unicode whitespace
set): tab through carriage return (U+0009–U+000D), the separators
U+001C–U+001F, space, next line U+0085, no-break space U+00A0, ogham
space U+1680, the U+2000–U+200A spaces, line/paragraph separators
U+2028/U+2029, narrow no-break space U+202F, medium mathematical space
U+205F and ideographic space U+3000. -/
def isPySpace (c : Char) : Bool :=
  (0x09 ≤ c.toNat && c.toNat ≤ 0x0d) || c.toNat = 0x20 ||
  (0x1c ≤ c.toNat && c.toNat ≤ 0x1f) || c.toNat = 0x85 || c.toNat = 0xa0 ||
  c.toNat = 0x1680 || (0x2000 ≤ c.toNat && c.toNat ≤ 0x200a) ||
  c.toNat = 0x2028 || c.toNat = 0x2029 || c.toNat = 0x202f ||
  c.toNat = 0x205f || c.toNat = 0x3000

/-- Remove the longest run of whitespace characters at the end of a
character list (the right half of Python `str.strip()`). -/
def dropTrailing (p : Char → Bool) : List Char → List Char
  | [] => []
  | c :: cs =>
    let r := dropTrailing p cs
    if r = [] ∧ p c then [] else c :: r

/-- Python `str.strip()` on a character list: drop leading and trailing
whitespace. -/
def pyStripChars (l : List Char) : List Char :=
  dropTrailing isPySpace (l.dropWhile isPySpace)

/-- Python `str.strip()`. -/
def pyStrip (s : String) : String :=
  String.mk (pyStripChars s.data)

/-- Python `str.split(" ")`: split on every single space character,
keeping empty fields; the empty string yields `[""]`. -/
def splitOnSpaceChars : List Char → List (List Char)
  | [] => [[]]
  | c :: cs =>
    let rest := splitOnSpaceChars cs
    if c = ' ' then [] :: rest
    else (c :: rest.headD []) :: rest.tail

/-- Python `line.startswith(" ")`. -/
def pyStartsWithSpace (s : String) : Bool :=
  match s.data with
  | c :: _ => c = ' '
  | [] => false

/-- Python `text.replace("▁", " ")` for the one-character word-boundary
marker: replace every occurrence of the marker character by a space. -/
def replaceLowLine (s : String) : String :=
  String.mk (s.data.map (fun c => if c = '▁' then ' ' else c))

/-! ### Greedy CTC collapse (shared loop of `ctc_decode` and
`ctc_decode_e2e`)

The Python loop is

    result = []
    prev_token = blank_id
    for token in tokens:
        if token != blank_id and token != prev_token:
            if token < len(vocab):
                result.append(vocab[token])
        prev_token = token

`ctcGreedy` returns the emitted token indices (the appended elements are
exactly `vocab[token]` for each index in the result, see the decoders
below); `prev` is threaded as an explicit argument. -/

def ctcGreedy (blank_id vocabLen : Nat) : Nat → List Nat → List Nat
  | _, [] => []
  | prev, token :: ts =>
    if token ≠ blank_id ∧ token ≠ prev then
      if token < vocabLen then token :: ctcGreedy blank_id vocabLen token ts
      else ctcGreedy blank_id vocabLen token ts
    else ctcGreedy blank_id vocabLen token ts

/-- `np.argmax` over one frame: index of the first maximal element
(`np.argmax` returns the first occurrence of the maximum). -/
def argmaxAux : List ℚ → Nat → Nat → ℚ → Nat
  | [], _, best, _ => best
  | v :: vs, i, best, bestVal =>
    if bestVal < v then argmaxAux vs (i + 1) i v
    else argmaxAux vs (i + 1) best bestVal

def argmax : List ℚ → Nat
  | [] => 0
  | v :: vs => argmaxAux vs 1 0 v

/-! ### `test_gigaam_official.py`: hard-coded vocabulary and decoder -/

/-- The 33-token character vocabulary `VOCAB` of test_gigaam_official.py. -/
def VOCAB : List String :=
  [" ", "а", "б", "в", "г", "д", "е", "ж", "з", "и", "й", "к", "л", "м",
   "н", "о", "п", "р", "с", "т", "у", "ф", "х", "ц", "ч", "ш", "щ", "ъ",
   "ы", "ь", "э", "ю", "я"]

def BLANK_ID : Nat := 33

/-- Token strings appended by the official decoder loop
(`result` after the loop, as a list). -/
def official_tokens (logits : List (List ℚ)) : List String :=
  (ctcGreedy BLANK_ID VOCAB.length BLANK_ID (logits.map argmax)).map
    (fun t => VOCAB.getD t "")

/-- `ctc_decode` of test_gigaam_official.py: greedy collapse then plain
concatenation (no trimming).  The logits tensor `[1, time, vocab_size]`
is modelled by its single batch row, a list of frames. -/
def ctc_decode (logits : List (List ℚ)) : String :=
  String.join (official_tokens logits)

/-! ### `test_gigaam_e2e.py`: vocabulary loader and E2E decoder -/

/-- `load_vocab` of test_gigaam_e2e.py.  The file is modelled as its list
of lines (without trailing newline characters, which every operation used
by the loader ignores: `strip` removes them and `startswith(" ")` does not
see them).  For each line: `parts = line.strip().split(" ")`; `if parts:`
(always true, Python split never returns an empty list); the token is
`" "` when the line starts with a literal space, else `parts[0]`. -/
def load_vocab : List String → List String
  | [] => []
  | line :: rest =>
    let parts := splitOnSpaceChars (pyStripChars line.data)
    if parts ≠ [] then
      (if pyStartsWithSpace line then " " else String.mk (parts.headD [])) ::
        load_vocab rest
    else load_vocab rest

/-- Modelled from the spec: the vocabulary serializer is not in the
sources (only the loader is); section 6 fixes the file format as "one
token per line; a line beginning with a literal space denotes the
single-space token; otherwise the first whitespace-delimited field is the
token; index is the line's ordinal position".  Writing each token as its
own line realizes that format. -/
def serialize_vocab (vocab : List String) : List String := vocab

/-- Token strings appended by the E2E decoder loop
(`result` after the loop, as a list); `blank_id = len(vocab) - 1`. -/
def e2e_tokens (logits : List (List ℚ)) (vocab : List String) : List String :=
  (ctcGreedy (vocab.length - 1) vocab.length (vocab.length - 1)
      (logits.map argmax)).map
    (fun t => vocab.getD t "")

/-- `ctc_decode_e2e` of test_gigaam_e2e.py: greedy collapse, join,
replace the `▁` word-boundary marker by a space, strip. -/
def ctc_decode_e2e (logits : List (List ℚ)) (vocab : List String) : String :=
  pyStrip (replaceLowLine (String.join (e2e_tokens logits vocab)))

/-! ### Feature extractor shape (`compute_mel_spectrogram`)

The numeric mel kernel (Hann window, FFT, HTK filterbank, log) lives in
the external torchaudio call; the claims under study concern only the
shape of its output with `center=False`. -/

/-- Number of analysis frames for `center=False` framing: a frame at
offset `k*hop` needs all `win` samples available, the final partial frame
is dropped. -/
def n_frames (len win hop : Nat) : Nat :=
  if len < win then 0 else (len - win) / hop + 1

/-- The `center=False` framing: overlapping windows of `win` samples
spaced `hop` apart, no padding. -/
def frames (samples : List ℚ) (win hop : Nat) : List (List ℚ) :=
  (List.range (n_frames samples.length win hop)).map
    (fun k => (samples.drop (k * hop)).take win)

/-- Modelled from the spec: the per-frame mel energy of filter `m`.  The
FFT/HTK-filterbank numerics are computed by torchaudio (external,
section 2 of the spec); only the clamp floor `1e-9` (section 4.1 step 5)
and the fact that each frame contributes one energy per mel filter are
visible to the shape claims, so the projection is modelled as a clamped
frame energy. -/
def melEnergy (m : Nat) (frame : List ℚ) : ℚ :=
  max ((m + 1 : ℚ)⁻¹ * frame.foldl (fun a x => a + x * x) 0) (1 / 1000000000)

/-- `compute_mel_spectrogram` shape model: `N_MELS` rows, one energy per
frame (the `[1, n_mels, n_frames]` tensor, batch dimension elided). -/
def compute_mel_spectrogram (samples : List ℚ) : List (List ℚ) :=
  (List.range N_MELS).map
    (fun m => (frames samples WIN_LENGTH HOP_LENGTH).map (melEnergy m))

/-! ### `faster_whisper_cli.py`: PCM normalization and segment assembly -/

/-- One sample of the ffmpeg PCM boundary of `load_audio_ffmpeg`
(both gigaam scripts): a signed 16-bit sample divided by 32768.0. -/
def pcm_to_float (s : ℤ) : ℚ := (s : ℚ) / 32768

/-- The transcript assembly of faster_whisper_cli.py `main`:

    text_parts = [seg.text.strip() for seg in segments]
    print(" ".join(tp for tp in text_parts if tp))

Segments are represented by their texts (the only field used). -/
def assemble_text (segments : List String) : String :=
  String.intercalate " " ((segments.map pyStrip).filter (fun tp => tp ≠ ""))

/-! ### Concrete inputs for the scenario and counterexample claims -/

/-- The scenario vocabulary `[" ", "a", "b", blank]` with blank index 3. -/
def demoVocab : List String := [" ", "a", "b", "<blk>"]

/-- Six one-hot frames whose per-frame arg-max indices are
`[1, 1, 3, 2, 3, 0]`. -/
def demoLogits : List (List ℚ) :=
  [[0, 1, 0, 0], [0, 1, 0, 0], [0, 0, 0, 1],
   [0, 0, 1, 0], [0, 0, 0, 1], [1, 0, 0, 0]]

/-- A single correctly-shaped frame (34 classes) whose arg-max is class 0,
the space character of `VOCAB`. -/
def spaceFrameLogits : List (List ℚ) :=
  [[1, 0, 0, 0, 0, 0, 0, 0, 0, 0, 0, 0, 0, 0, 0, 0, 0,
    0, 0, 0, 0, 0, 0, 0, 0, 0, 0, 0, 0, 0, 0, 0, 0, 0]]

/-- A mis-shaped logits tensor: one frame with 5 classes, while
`len(VOCAB) + 1 = 34`.  Its arg-max is class 4 (the letter "г"). -/
def badShapeLogits : List (List ℚ) := [[0, 0, 0, 0, 1]]

/-! ### Sanity examples (concrete evaluations of the embedding) -/

example : splitOnSpaceChars "a  b".data = ["a".data, [], "b".data] := by decide
example : pyStrip "  ab " = "ab" := by decide
example : argmax [0, 1, 0, 0] = 1 := by decide
example : argmax [5, 5, 1] = 0 := by decide
example : VOCAB.length = 33 := by decide
example : demoLogits.map argmax = [1, 1, 3, 2, 3, 0] := by decide
example : ctc_decode_e2e demoLogits demoVocab = "ab" := by decide

/-! ### Helper lemmas -/

theorem dropWhile_idem (p : Char → Bool) (l : List Char) :
    (l.dropWhile p).dropWhile p = l.dropWhile p := by
  induction l with
  | nil => rfl
  | cons c cs ih =>
    by_cases h : p c
    · simp [List.dropWhile_cons, h, ih]
    · simp [List.dropWhile_cons, h]

theorem dropTrailing_idem (p : Char → Bool) (l : List Char) :
    dropTrailing p (dropTrailing p l) = dropTrailing p l := by
  induction l with
  | nil => rfl
  | cons c cs ih =>
    simp only [dropTrailing]
    split_ifs with h
    · rfl
    · simp only [dropTrailing, ih]
      rw [if_neg h]

theorem dropTrailing_keeps_head (p : Char → Bool) (c : Char) (cs : List Char)
    (h : p c = false) :
    (dropTrailing p (c :: cs)).dropWhile p = dropTrailing p (c :: cs) := by
  simp only [dropTrailing]
  split_ifs with hif
  · rfl
  · simp [List.dropWhile_cons, h]

theorem dropWhile_dropTrailing (p : Char → Bool) (l : List Char)
    (h : l.dropWhile p = l) :
    (dropTrailing p l).dropWhile p = dropTrailing p l := by
  cases l with
  | nil => rfl
  | cons c cs =>
    have hc : p c = false := by
      by_contra hpc
      have hpc' : p c = true := by
        cases hb : p c
        · exact absurd hb hpc
        · rfl
      rw [List.dropWhile_cons, if_pos hpc'] at h
      have hlen := List.Sublist.length_le (List.dropWhile_sublist (l := cs) p)
      rw [h] at hlen
      simp at hlen
    exact dropTrailing_keeps_head p c cs hc

theorem pyStripChars_idem (l : List Char) :
    pyStripChars (pyStripChars l) = pyStripChars l := by
  unfold pyStripChars
  rw [dropWhile_dropTrailing isPySpace (l.dropWhile isPySpace)
        (dropWhile_idem isPySpace l),
      dropTrailing_idem]

theorem pyStrip_idem (s : String) : pyStrip (pyStrip s) = pyStrip s := by
  unfold pyStrip
  rw [show (String.mk (pyStripChars s.data)).data = pyStripChars s.data from rfl,
      pyStripChars_idem]

/-! ### Claim theorems -/

/-- C1: Greedy CTC decoding selects, for every time frame, the arg-max
class over the vocabulary dimension, skips the blank class (which still
becomes the new "previous" class), skips a class equal to the previous
class (repeat collapsing), and otherwise appends the corresponding
vocabulary token; in particular, for the vocabulary
`[" ", "a", "b", blank]` with blank index 3, a logits tensor whose
per-frame arg-max indices are `[1, 1, 3, 2, 3, 0]` decodes to the token
string `"ab "` (trimming to `"ab"`). -/
theorem C1_greedy_ctc_decoding :
    (∀ b l p ts, ctcGreedy b l p (b :: ts) = ctcGreedy b l b ts)
    ∧ (∀ b l t ts, ctcGreedy b l t (t :: ts) = ctcGreedy b l t ts)
    ∧ (∀ b l p t ts, t ≠ b → t ≠ p → t < l →
        ctcGreedy b l p (t :: ts) = t :: ctcGreedy b l t ts)
    ∧ demoLogits.map argmax = [1, 1, 3, 2, 3, 0]
    ∧ String.join (e2e_tokens demoLogits demoVocab) = "ab "
    ∧ ctc_decode_e2e demoLogits demoVocab = "ab" := by
  refine ⟨?_, ?_, ?_, by decide, by decide, by decide⟩
  · intro b l p ts
    simp [ctcGreedy]
  · intro b l t ts
    simp [ctcGreedy]
  · intro b l p t ts hb hp hl
    simp [ctcGreedy, hb, hp, hl]

/-- C1 witness: the emission rule of `C1_greedy_ctc_decoding` applied at
blank 3, vocabulary size 4, previous class 1, chosen class 2. -/
theorem C1_greedy_ctc_decoding_witness : ctcGreedy 3 4 1 [2] = [2] :=
  (C1_greedy_ctc_decoding.2.2.1 3 4 1 2 []
      (by decide) (by decide) (by decide)).trans rfl

/-- C2 counterexample: the character-level decoder `ctc_decode` of
test_gigaam_official.py does not trim — a frame whose arg-max is the
space token decodes to `" "`, which still carries its whitespace. -/
theorem C2_official_decoder_untrimmed_counterexample :
    ctc_decode spaceFrameLogits = " "
    ∧ pyStrip (ctc_decode spaceFrameLogits) = ""
    ∧ ctc_decode spaceFrameLogits ≠ pyStrip (ctc_decode spaceFrameLogits) := by
  refine ⟨by decide, by decide, by decide⟩

/-- C2 (amended): the sub-word (E2E) decoder `ctc_decode_e2e` always
returns whitespace-trimmed text (stripping its output again changes
nothing), for every logits tensor and vocabulary; the character-level
decoder `ctc_decode` returns the concatenated tokens without trimming. -/
theorem C2_e2e_decoder_trimmed (logits : List (List ℚ)) (vocab : List String) :
    pyStrip (ctc_decode_e2e logits vocab) = ctc_decode_e2e logits vocab := by
  unfold ctc_decode_e2e
  exact pyStrip_idem _

/-- Every index emitted by the greedy CTC collapse differs from the blank
index and is below the vocabulary size. -/
theorem mem_ctcGreedy (b l : Nat) :
    ∀ (ts : List Nat) (p t : Nat), t ∈ ctcGreedy b l p ts → t ≠ b ∧ t < l := by
  intro ts
  induction ts with
  | nil =>
    intro p t h
    simp [ctcGreedy] at h
  | cons tok rest ih =>
    intro p t h
    simp only [ctcGreedy] at h
    split_ifs at h with h1 h2
    · rcases List.mem_cons.mp h with rfl | h3
      · exact ⟨h1.1, h2⟩
      · exact ih tok t h3
    · exact ih tok t h
    · exact ih tok t h

/-- C3 counterexample: `ctc_decode` never checks the logits shape.  A
one-frame tensor with only 5 classes (while `len(VOCAB) + 1 = 34`) is
decoded without any error to the letter `"г"` (= `VOCAB[4]`). -/
theorem C3_no_shape_check_counterexample :
    badShapeLogits.map List.length = [5]
    ∧ (5 : Nat) ≠ VOCAB.length + 1
    ∧ ctc_decode badShapeLogits = "г" := by
  refine ⟨by decide, by decide, by decide⟩

/-- C3 (amended): the decoder performs no validation of the logits
tensor's last dimension and silently decodes mis-shaped input; its only
protection is the `token < len(vocab)` guard, so every emitted class
index lies inside the vocabulary range. -/
theorem C3_decoder_ignores_shape (logits : List (List ℚ)) (t : Nat)
    (ht : t ∈ ctcGreedy BLANK_ID VOCAB.length BLANK_ID (logits.map argmax)) :
    t < VOCAB.length :=
  (mem_ctcGreedy BLANK_ID VOCAB.length (logits.map argmax) BLANK_ID t ht).2

/-- C3 witness: the amended guarantee at the mis-shaped tensor, whose
emitted class index 4 is inside the vocabulary range. -/
theorem C3_decoder_ignores_shape_witness :
    4 ∈ ctcGreedy BLANK_ID VOCAB.length BLANK_ID (badShapeLogits.map argmax)
    ∧ 4 < VOCAB.length :=
  ⟨by decide, C3_decoder_ignores_shape badShapeLogits 4 (by decide)⟩

/-- C4: with `center=False`, the feature tensor has `N_MELS` rows and
`floor((len − win_length)/hop_length) + 1` frames when
`len ≥ win_length`, and zero frames (still without failing) when
`len < win_length`. -/
theorem C4_feature_extractor_shape (samples : List ℚ) :
    (compute_mel_spectrogram samples).length = N_MELS
    ∧ (WIN_LENGTH ≤ samples.length →
        ∀ row ∈ compute_mel_spectrogram samples,
          row.length = (samples.length - WIN_LENGTH) / HOP_LENGTH + 1)
    ∧ (samples.length < WIN_LENGTH →
        ∀ row ∈ compute_mel_spectrogram samples, row.length = 0) := by
  refine ⟨by simp [compute_mel_spectrogram], ?_, ?_⟩
  · intro h row hrow
    simp only [compute_mel_spectrogram, List.mem_map] at hrow
    obtain ⟨m, _, rfl⟩ := hrow
    simp [frames, n_frames, Nat.not_lt.mpr h]
  · intro h row hrow
    simp only [compute_mel_spectrogram, List.mem_map] at hrow
    obtain ⟨m, _, rfl⟩ := hrow
    simp [frames, n_frames, h]

/-- The first element of a non-empty list is a member. -/
theorem getD_zero_mem {α : Type} (l : List α) (d : α) (h : l ≠ []) :
    l.getD 0 d ∈ l := by
  cases l with
  | nil => exact absurd rfl h
  | cons c cs => exact List.mem_cons_self c cs

/-- C4 witness: 320 samples give exactly one frame per mel row; a single
sample gives empty rows. -/
theorem C4_feature_extractor_shape_witness :
    ((compute_mel_spectrogram (List.replicate 320 0)).getD 0 []).length
        = ((List.replicate 320 (0 : ℚ)).length - WIN_LENGTH) / HOP_LENGTH + 1
    ∧ ((compute_mel_spectrogram [0]).getD 0 []).length = 0 := by
  have h1 := C4_feature_extractor_shape (List.replicate 320 (0 : ℚ))
  have h2 := C4_feature_extractor_shape ([0] : List ℚ)
  have hne1 : compute_mel_spectrogram (List.replicate 320 (0 : ℚ)) ≠ [] :=
    List.length_pos.mp (by rw [h1.1]; decide)
  have hne2 : compute_mel_spectrogram ([0] : List ℚ) ≠ [] :=
    List.length_pos.mp (by rw [h2.1]; decide)
  exact ⟨h1.2.1 (by rw [List.length_replicate]; decide) _ (getD_zero_mem _ _ hne1),
         h2.2.2 (by decide) _ (getD_zero_mem _ _ hne2)⟩

/-- `(String.mk l).data = l`. -/
theorem data_mk (l : List Char) : (String.mk l).data = l := rfl

/-- `dropTrailing` keeps a sublist of its input. -/
theorem dropTrailing_sublist (p : Char → Bool) (l : List Char) :
    (dropTrailing p l).Sublist l := by
  induction l with
  | nil => exact List.Sublist.refl []
  | cons c cs ih =>
    simp only [dropTrailing]
    split_ifs with h
    · exact List.nil_sublist _
    · exact List.Sublist.cons₂ c ih

/-- Stripping keeps a sublist of the characters. -/
theorem pyStripChars_sublist (l : List Char) : (pyStripChars l).Sublist l :=
  (dropTrailing_sublist isPySpace _).trans (List.dropWhile_sublist _)

/-- C5: the E2E decoder's output never contains the raw word-boundary
marker `▁`: every occurrence is replaced by a space before the text is
returned. -/
theorem C5_word_boundary_marker_replaced
    (logits : List (List ℚ)) (vocab : List String) :
    '▁' ∉ (ctc_decode_e2e logits vocab).data := by
  intro hmem
  have hmem' : '▁' ∈
      pyStripChars (replaceLowLine (String.join (e2e_tokens logits vocab))).data := by
    simpa [ctc_decode_e2e, pyStrip, data_mk] using hmem
  have h1 : '▁' ∈ (replaceLowLine (String.join (e2e_tokens logits vocab))).data :=
    List.Sublist.mem hmem' (pyStripChars_sublist _)
  simp only [replaceLowLine, data_mk, List.mem_map] at h1
  obtain ⟨c, _, hc⟩ := h1
  by_cases hceq : c = '▁'
  · rw [if_pos hceq] at hc
    exact absurd hc (by decide)
  · rw [if_neg hceq] at hc
    exact hceq hc

/-- C6: the segment assembler joins the whitespace-trimmed texts of the
surviving segments with exactly one space, skipping segments that trim to
empty; in particular `"hello"` and `"world"` assemble to exactly
`"hello world"`. -/
theorem C6_assemble_segments :
    (∀ a b : String, pyStrip a ≠ "" → pyStrip b ≠ "" →
        assemble_text [a, b] = pyStrip a ++ " " ++ pyStrip b)
    ∧ (∀ a b : String, pyStrip a = "" → assemble_text [a, b] = assemble_text [b])
    ∧ assemble_text ["hello", "world"] = "hello world" := by
  refine ⟨?_, ?_, by decide⟩
  · intro a b ha hb
    simp [assemble_text, ha, hb]
    rfl
  · intro a b ha
    simp [assemble_text, ha]

/-- C6 witness: the join rule of `C6_assemble_segments` applied at the
two concrete segment texts. -/
theorem C6_assemble_segments_witness :
    assemble_text ["hello", "world"] = pyStrip "hello" ++ " " ++ pyStrip "world" :=
  C6_assemble_segments.1 "hello" "world" (by decide) (by decide)

/-- Python `split(" ")` never returns the empty list (`if parts:` in the
loader is always true). -/
theorem splitOnSpaceChars_ne_nil (l : List Char) : splitOnSpaceChars l ≠ [] := by
  cases l with
  | nil => simp [splitOnSpaceChars]
  | cons c cs =>
    simp only [splitOnSpaceChars]
    split_ifs <;> simp

/-- A space-free character list splits into the single field it is. -/
theorem splitOnSpaceChars_of_no_space (l : List Char) (h : ' ' ∉ l) :
    splitOnSpaceChars l = [l] := by
  induction l with
  | nil => rfl
  | cons c cs ih =>
    have hc : ¬(c = ' ') := fun hceq => h (hceq ▸ List.mem_cons_self c cs)
    simp only [splitOnSpaceChars]
    rw [if_neg hc, ih (fun hm => h (List.mem_cons_of_mem c hm))]
    rfl

/-- `dropWhile` is the identity on a list with no matching character. -/
theorem dropWhile_eq_self_of_none (p : Char → Bool) (l : List Char)
    (h : ∀ c ∈ l, p c = false) : l.dropWhile p = l := by
  cases l with
  | nil => rfl
  | cons c cs =>
    rw [List.dropWhile_cons, if_neg]
    simp [h c (List.mem_cons_self c cs)]

/-- `dropTrailing` is the identity on a list with no matching character. -/
theorem dropTrailing_eq_self_of_none (p : Char → Bool) (l : List Char)
    (h : ∀ c ∈ l, p c = false) : dropTrailing p l = l := by
  induction l with
  | nil => rfl
  | cons c cs ih =>
    simp only [dropTrailing]
    rw [ih (fun d hd => h d (List.mem_cons_of_mem c hd)), if_neg]
    intro hcon
    have hfalse := h c (List.mem_cons_self c cs)
    rw [hcon.2] at hfalse
    exact absurd hfalse (by decide)

/-- `strip` is the identity on whitespace-free text. -/
theorem pyStripChars_eq_self (l : List Char) (h : ∀ c ∈ l, isPySpace c = false) :
    pyStripChars l = l := by
  unfold pyStripChars
  rw [dropWhile_eq_self_of_none isPySpace l h, dropTrailing_eq_self_of_none isPySpace l h]

/-- One step of the vocabulary loader (the `if parts:` test always
passes). -/
theorem load_vocab_cons (line : String) (rest : List String) :
    load_vocab (line :: rest) =
      (if pyStartsWithSpace line then " "
       else String.mk ((splitOnSpaceChars (pyStripChars line.data)).headD [])) ::
        load_vocab rest := by
  simp only [load_vocab]
  rw [if_pos (splitOnSpaceChars_ne_nil (pyStripChars line.data))]

/-- C7: serializing a vocabulary in the spec's file format (one token per
line, the single-space token written as its literal-space line) and
reloading it with `load_vocab` reproduces the token list, for every
vocabulary whose tokens are representable in the format: each token is
either the single-space token or a non-empty whitespace-free string. -/
theorem C7_vocab_round_trip (vocab : List String)
    (h : ∀ t ∈ vocab, t = " " ∨ (t ≠ "" ∧ ∀ c ∈ t.data, isPySpace c = false)) :
    load_vocab (serialize_vocab vocab) = vocab := by
  unfold serialize_vocab
  induction vocab with
  | nil => rfl
  | cons t ts ih =>
    rw [load_vocab_cons]
    congr 1
    · rcases h t (List.mem_cons_self t ts) with hsp | ⟨hne, hns⟩
      · rw [hsp]
        decide
      · have hsw : pyStartsWithSpace t = false := by
          unfold pyStartsWithSpace
          cases hdata : t.data with
          | nil => rfl
          | cons c cs =>
            have hc := hns c (by rw [hdata]; exact List.mem_cons_self c cs)
            have hcsp : ¬(c = ' ') := by
              intro hceq
              rw [hceq] at hc
              exact absurd hc (by decide)
            simp [hcsp]
        have hspace : ' ' ∉ t.data := by
          intro hm
          exact absurd (hns ' ' hm) (by decide)
        rw [hsw]
        simp only [Bool.false_eq_true, if_false]
        rw [pyStripChars_eq_self t.data hns, splitOnSpaceChars_of_no_space t.data hspace]
        rfl
    · exact ih (fun u hu => h u (List.mem_cons_of_mem t hu))

/-- C7 witness: the round trip at a concrete mixed vocabulary (sub-word
tokens, the space token, and a blank marker). -/
theorem C7_vocab_round_trip_witness :
    load_vocab (serialize_vocab ["▁пр", "ив", " ", "<blk>"]) =
      ["▁пр", "ив", " ", "<blk>"] :=
  C7_vocab_round_trip ["▁пр", "ив", " ", "<blk>"] (by decide)

/-- C8: every sample produced by the PCM decoding boundary (a signed
16-bit sample divided by 32768.0, as in `load_audio_ffmpeg`) lies in
`[-1.0, 1.0]`. -/
theorem C8_pcm_sample_in_unit_interval (s : ℤ)
    (h1 : -32768 ≤ s) (h2 : s ≤ 32767) :
    -1 ≤ pcm_to_float s ∧ pcm_to_float s ≤ 1 := by
  unfold pcm_to_float
  constructor
  · rw [le_div_iff₀ (by norm_num : (0 : ℚ) < 32768)]
    have hq : (-32768 : ℚ) ≤ (s : ℚ) := by exact_mod_cast h1
    linarith
  · rw [div_le_iff₀ (by norm_num : (0 : ℚ) < 32768)]
    have hq : (s : ℚ) ≤ 32767 := by exact_mod_cast h2
    linarith

/-- C8 witness: the bound at both extreme 16-bit sample values. -/
theorem C8_pcm_sample_in_unit_interval_witness :
    (-1 ≤ pcm_to_float (-32768) ∧ pcm_to_float (-32768) ≤ 1)
    ∧ (-1 ≤ pcm_to_float 32767 ∧ pcm_to_float 32767 ≤ 1) :=
  ⟨C8_pcm_sample_in_unit_interval (-32768) (by decide) (by decide),
   C8_pcm_sample_in_unit_interval 32767 (by decide) (by decide)⟩

/-- The greedy collapse emits at most one index per frame. -/
theorem ctcGreedy_length_le (b l : Nat) :
    ∀ (ts : List Nat) (p : Nat), (ctcGreedy b l p ts).length ≤ ts.length := by
  intro ts
  induction ts with
  | nil =>
    intro p
    simp [ctcGreedy]
  | cons tok rest ih =>
    intro p
    simp only [ctcGreedy]
    split_ifs with h1 h2
    · simpa using Nat.succ_le_succ (ih tok)
    · exact (ih tok).trans (Nat.le_succ _)
    · exact (ih tok).trans (Nat.le_succ _)

/-- C9: both decoders emit at most one vocabulary token per time frame,
so the emitted token count never exceeds the frame count, and an input
with zero frames decodes to the empty string. -/
theorem C9_at_most_one_token_per_frame
    (logits : List (List ℚ)) (vocab : List String) :
    (official_tokens logits).length ≤ logits.length
    ∧ (e2e_tokens logits vocab).length ≤ logits.length
    ∧ ctc_decode [] = ""
    ∧ ctc_decode_e2e [] vocab = "" := by
  refine ⟨?_, ?_, rfl, rfl⟩
  · have hl := ctcGreedy_length_le BLANK_ID VOCAB.length (logits.map argmax) BLANK_ID
    simpa [official_tokens] using hl
  · have hl := ctcGreedy_length_le (vocab.length - 1) vocab.length
      (logits.map argmax) (vocab.length - 1)
    simpa [e2e_tokens] using hl

/-- C10: the decoded output never contains the blank symbol's token. The
decoder compares each frame's class against the blank index before any
vocabulary lookup: every index emitted by the official decoder differs
from `BLANK_ID` — which moreover equals `VOCAB.length = 33`, outside the
vocabulary's index range — and for any duplicate-free non-empty E2E
vocabulary the blank token (the last entry) never appears among the
emitted token strings. -/
theorem C10_blank_never_in_output (logits : List (List ℚ)) (vocab : List String)
    (hnd : vocab.Nodup) (hv : 1 ≤ vocab.length) :
    BLANK_ID = VOCAB.length
    ∧ (∀ t ∈ ctcGreedy BLANK_ID VOCAB.length BLANK_ID (logits.map argmax),
        t ≠ BLANK_ID ∧ t < VOCAB.length)
    ∧ vocab.getD (vocab.length - 1) "" ∉ e2e_tokens logits vocab := by
  refine ⟨rfl, ?_, ?_⟩
  · intro t ht
    exact mem_ctcGreedy BLANK_ID VOCAB.length (logits.map argmax) BLANK_ID t ht
  · intro hmem
    simp only [e2e_tokens, List.mem_map] at hmem
    obtain ⟨t, ht, heq⟩ := hmem
    obtain ⟨htb, htl⟩ :=
      mem_ctcGreedy (vocab.length - 1) vocab.length (logits.map argmax)
        (vocab.length - 1) t ht
    have hb : vocab.length - 1 < vocab.length :=
      Nat.sub_lt (Nat.lt_of_lt_of_le Nat.zero_lt_one hv) Nat.zero_lt_one
    rw [List.getD_eq_getElem vocab "" htl, List.getD_eq_getElem vocab "" hb] at heq
    exact htb (hnd.getElem_inj_iff.mp heq)

/-- C10 witness: at the scenario vocabulary and logits, the blank token
`"<blk>"` is absent from the emitted tokens. -/
theorem C10_blank_never_in_output_witness :
    demoVocab.getD (demoVocab.length - 1) "" ∉ e2e_tokens demoLogits demoVocab :=
  (C10_blank_never_in_output demoLogits demoVocab (by decide) (by decide)).2.2
